import Mathlib

/-!
Shallow embedding of `src/app.py` (the anony feedback service).

The two database tables (`Feedback`, `UserFeedback`), the UUID format
check (`is_valid_uuid`), and the two mutating route handlers
(`send_invite`, `submit_feedback`) are translated from the source.
JSON request bodies are modelled by an inductive `Json` type together
with small functions reproducing the relevant Python operations
(`'k' in data`, `data['k']`, truthiness, iteration), including the
exceptions they raise on ill-typed operands.
-/

namespace Anony

/-- A JSON value, as produced by `request.get_json()`. -/
inductive Json where
  | null
  | bool (b : Bool)
  | num (n : Int)
  | str (s : String)
  | arr (xs : List Json)
  | obj (kvs : List (String × Json))

/-- Python exceptions that can escape the handlers uncaught. -/
inductive PyExn where
  | typeError
  | keyError
  | attributeError
  | integrityError
deriving DecidableEq

/-- Row of the `Feedback` table: `id` (String(36) primary key),
`email`, `submitted` flag (default `False`). This is the invite token. -/
structure Feedback where
  id : String
  email : String
  submitted : Bool
deriving DecidableEq

/-- Row of the `UserFeedback` table: `id` (primary key, shared with the
invite token), `email` (nullable=False), `feedback` text (nullable=False;
kept as the raw JSON value supplied by the caller). -/
structure UserFeedback where
  id : String
  email : String
  feedback : Json

/-- The persistent store: the two tables of `feedback.db`. -/
structure DB where
  feedbacks : List Feedback
  userFeedbacks : List UserFeedback

/-- The empty database (state after `db.create_all()`). -/
def DB.empty : DB := ⟨[], []⟩

/-- Python `x == k` where `k` is a string: true only when `x` is the
equal string (Python equality between a string and any non-string JSON
value is `False`). -/
def jsonStrEq (x : Json) (k : String) : Bool :=
  match x with
  | .str s => s == k
  | _ => false

/-- Naive substring test, modelling Python `sub in s` on strings. -/
def strContains (s sub : String) : Bool :=
  (List.range (s.length + 1)).any fun i => ((s.drop i).take sub.length) == sub

/-- Python `k in data`: key test for dicts, membership for lists,
substring for strings; `TypeError` for `None`, booleans and numbers. -/
def pyContains (j : Json) (k : String) : Except PyExn Bool :=
  match j with
  | .obj kvs => .ok (kvs.any fun kv => kv.1 == k)
  | .arr xs => .ok (xs.any fun x => jsonStrEq x k)
  | .str s => .ok (strContains s k)
  | _ => .error .typeError

/-- Python `data[k]` for a string key: dict lookup (`KeyError` when
absent); `TypeError` on any other operand. -/
def pyGetItem (j : Json) (k : String) : Except PyExn Json :=
  match j with
  | .obj kvs =>
    match kvs.find? (fun kv => kv.1 == k) with
    | some kv => .ok kv.2
    | none => .error .keyError
  | _ => .error .typeError

/-- Python truthiness of a JSON value (`not x` is its negation). -/
def pyFalsy (j : Json) : Bool :=
  match j with
  | .null => true
  | .bool b => !b
  | .num n => n == 0
  | .str s => s == ""
  | .arr xs => xs.isEmpty
  | .obj kvs => kvs.isEmpty

/-- Python iteration `for x in data`: list elements, characters of a
string, keys of a dict; `TypeError` for `None`, booleans and numbers. -/
def pyIter (j : Json) : Except PyExn (List Json) :=
  match j with
  | .arr xs => .ok xs
  | .str s => .ok (s.toList.map fun c => .str (String.mk [c]))
  | .obj kvs => .ok (kvs.map fun kv => .str kv.1)
  | _ => .error .typeError

/-- Whether a JSON value is a string (`isinstance(x, str)`). -/
def isStr (x : Json) : Bool :=
  match x with
  | .str _ => true
  | _ => false

/-- The string carried by a JSON string value. -/
def asStr (x : Json) : String :=
  match x with
  | .str s => s
  | _ => ""

/-- Whether a JSON value is `null` (Python `None`). -/
def isNull (x : Json) : Bool :=
  match x with
  | .null => true
  | _ => false

/-- Hexadecimal digit test, as accepted by Python `int(_, 16)`. -/
def isHexChar (c : Char) : Bool :=
  c.isDigit || (decide ('a' ≤ c) && decide (c ≤ 'f')) || (decide ('A' ≤ c) && decide (c ≤ 'F'))

/-- Curly-brace test (the characters stripped by `strip` in
`uuid.UUID`); code points 123 and 125. -/
def isBrace (c : Char) : Bool :=
  c == Char.ofNat 123 || c == Char.ofNat 125

/-- The characters of the literal `urn:`. -/
def urnPat : List Char := ['u', 'r', 'n', ':']

/-- The characters of the literal `uuid:`. -/
def uuidPat : List Char := ['u', 'u', 'i', 'd', ':']

/-- Python `str.replace(pat, '')`: removes every non-overlapping
occurrence of `pat`, scanning left to right. The `fuel` argument makes
the recursion structural; it is called with `fuel = cs.length`, which
always suffices since each step consumes at least one character. -/
def stripAllFuel (pat : List Char) : Nat → List Char → List Char
  | _, [] => []
  | 0, cs => cs
  | fuel + 1, c :: cs =>
    if pat.isPrefixOf (c :: cs) && !pat.isEmpty then
      stripAllFuel pat fuel (List.drop (pat.length - 1) cs)
    else
      c :: stripAllFuel pat fuel cs

/-- Remove every occurrence of `pat` from `cs` (Python
`''.join-free str.replace(pat, '')`). -/
def stripAll (pat cs : List Char) : List Char :=
  stripAllFuel pat cs.length cs

/-- Python `str.strip('\x7b\x7d')`: drop curly braces from both ends. -/
def stripBraces (cs : List Char) : List Char :=
  ((cs.dropWhile isBrace).reverse.dropWhile isBrace).reverse

/-- The normalisation `uuid.UUID.__init__` applies to its `hex`
argument: remove the literals `urn:` and `uuid:`, strip curly braces at
the ends, remove every hyphen (replacement of a single character by the
empty string is exactly a filter). -/
def pyUuidHex (cs : List Char) : List Char :=
  (stripBraces (stripAll uuidPat (stripAll urnPat cs))).filter fun c => !(c == '-')

/-- Model of `is_valid_uuid` (`app.py` lines 74-79): `uuid.UUID(s,
version=4)` succeeds iff the normalised string is 32 hex digits — the
`version=4` argument overwrites the version bits instead of checking
them, so no version constraint is imposed. (The tolerance of Python
`int(_, 16)` for surrounding whitespace, a sign, and underscore digit
separators is not modelled.) -/
def is_valid_uuid (s : String) : Bool :=
  (pyUuidHex s.toList).length == 32 && (pyUuidHex s.toList).all isHexChar

/-- Outcome of the check-and-insert at `app.py` lines 186-197. -/
inductive IssueResult where
  | duplicate
  | collision
  | issued
deriving DecidableEq

/-- The issue step of the `send_invite` loop body (lines 186-197):
`Feedback.query.filter_by(email=email).first()` duplicate check, then
insert-and-commit of `Feedback(id, email)` (with `submitted` defaulting
to `False`). A commit with a primary-key collision on `id` raises
`IntegrityError` and persists nothing; `collision` reports that case. -/
def issue (id email : String) (db : DB) : DB × IssueResult :=
  if db.feedbacks.any (fun f => f.email == email) then (db, .duplicate)
  else if db.feedbacks.any (fun f => f.id == id) then (db, .collision)
  else ({ db with feedbacks := db.feedbacks ++ [⟨id, email, false⟩] }, .issued)

/-- `Feedback.query.filter_by(id=tok).first()` (line 247). -/
def lookup (tok : String) (db : DB) : Option Feedback :=
  db.feedbacks.find? fun f => f.id == tok

/-- Failure message for an already-invited email (line 188). -/
def dupMsg (email : String) : String :=
  "Email '" ++ email ++ "' already invited!"

/-- Success message after `mail.send` (line 205). -/
def okMsg (email : String) : String :=
  "Invite sent successfully to " ++ email

/-- Failure message when `mail.send` raises (lines 207-208). -/
def failMsg (email exnText : String) : String :=
  "Error sending invite to " ++ email ++ ": " ++ exnText

/-- Accumulator of the `send_invite` loop: current database, the
`success_messages` and `error_messages` lists, and the number of
`uuid.uuid4()` values drawn so far in this request. -/
structure InviteAcc where
  db : DB
  succ : List String
  err : List String
  n : Nat

/-- One iteration of the `for email in emails` loop (lines 185-208).
`gen k` is the k-th `str(uuid.uuid4())` drawn in this request; `notify
email` is `none` when `mail.send` succeeds and `some msg` when it
raises an exception rendered as `msg`. A duplicate email records a
failure and continues without drawing an id; an id collision at commit
time escapes as an uncaught `IntegrityError`. -/
def inviteStep (gen : Nat → String) (notify : String → Option String)
    (acc : InviteAcc) (email : String) : InviteAcc × Option PyExn :=
  match issue (gen acc.n) email acc.db with
  | (_, .duplicate) => ({ acc with err := acc.err ++ [dupMsg email] }, none)
  | (_, .collision) => (acc, some .integrityError)
  | (db', .issued) =>
    match notify email with
    | none =>
      ({ db := db', succ := acc.succ ++ [okMsg email], err := acc.err, n := acc.n + 1 }, none)
    | some exnText =>
      ({ db := db', succ := acc.succ, err := acc.err ++ [failMsg email exnText], n := acc.n + 1 },
        none)

/-- The whole `for email in emails` loop; an uncaught exception stops
the loop, keeping every already-committed insert. -/
def inviteLoop (gen : Nat → String) (notify : String → Option String) :
    List String → InviteAcc → InviteAcc × Option PyExn
  | [], acc => (acc, none)
  | e :: rest, acc =>
    match inviteStep gen notify acc e with
    | (acc', none) => inviteLoop gen notify rest acc'
    | (acc', some exn) => (acc', some exn)

/-- An HTTP response: either `jsonify(message=...)` with a status code,
or the `jsonify(success=..., error=...)` batch report of
`send_invite`. -/
inductive Response where
  | msg (code : Nat) (message : String)
  | invites (success error : List String)
deriving DecidableEq

/-- Model of the `send_invite` handler (`app.py` lines 151-210) on an
already-parsed JSON body. The second component is `.error e` when the
Python code would let exception `e` escape the handler uncaught; the
first component is the database as persisted at that point (commits
already performed are kept). -/
def send_invite (gen : Nat → String) (notify : String → Option String)
    (body : Json) (db : DB) : DB × Except PyExn Response :=
  match pyContains body "emails" with
  | .error e => (db, .error e)
  | .ok false => (db, .ok (.msg 400 "No 'emails' key found in the JSON payload."))
  | .ok true =>
    match pyGetItem body "emails" with
    | .error e => (db, .error e)
    | .ok emailsJ =>
      if pyFalsy emailsJ then (db, .ok (.msg 400 "Invalid or empty email array."))
      else
        match pyIter emailsJ with
        | .error e => (db, .error e)
        | .ok items =>
          if items.all isStr then
            match inviteLoop gen notify (items.map asStr) ⟨db, [], [], 0⟩ with
            | (acc, none) => (acc.db, .ok (.invites acc.succ acc.err))
            | (acc, some exn) => (acc.db, .error exn)
          else (db, .ok (.msg 400 "Invalid or empty email array."))

/-- Marks the token row as submitted (`feedback_entry.submitted = True`,
line 266) — the per-row effect of the update inside the commit. -/
def markRedeemed (tok : String) (f : Feedback) : Feedback :=
  if f.id == tok then { f with submitted := true } else f

/-- The redemption core of `submit_feedback` (lines 246-269), after the
format check has passed: lookup by id, `submitted` guard,
`validate_email` on the stored address (the external email-syntax
validator is the parameter `validEmail`), then one commit inserting the
`UserFeedback` row and flipping `submitted`. The commit raises
`IntegrityError` — persisting nothing — when the feedback text is
`None` (`nullable=False`) or a `UserFeedback` row with this id already
exists (primary key). -/
def redeemCore (validEmail : String → Bool) (tok : String) (bodyText : Json)
    (db : DB) : DB × Except PyExn Response :=
  match lookup tok db with
  | none => (db, .ok (.msg 404 ("UUID '" ++ tok ++ "' not found.")))
  | some entry =>
    if entry.submitted then (db, .ok (.msg 400 "Feedback already submitted for this UUID."))
    else if !(validEmail entry.email) then (db, .ok (.msg 400 "Invalid email address."))
    else if isNull bodyText then (db, .error .integrityError)
    else if db.userFeedbacks.any (fun uf => uf.id == tok) then (db, .error .integrityError)
    else
      (⟨db.feedbacks.map (markRedeemed tok),
        db.userFeedbacks ++ [⟨tok, entry.email, bodyText⟩]⟩,
        .ok (.msg 200 "Feedback submitted successfully!"))

/-- `uuid.UUID(x, version=4)` applied to an arbitrary JSON value as in
`is_valid_uuid`: on a non-string the attribute access `x.replace`
raises `AttributeError`, which is not a `ValueError` and therefore
escapes the `except ValueError` clause. -/
def pyIsValidUuid (x : Json) : Except PyExn Bool :=
  match x with
  | .str s => .ok (is_valid_uuid s)
  | _ => .error .attributeError

/-- Model of the `submit_feedback` handler (`app.py` lines 213-269) on
an already-parsed JSON body. -/
def submit_feedback (validEmail : String → Bool) (body : Json) (db : DB) :
    DB × Except PyExn Response :=
  match pyContains body "uuid" with
  | .error e => (db, .error e)
  | .ok false =>
    (db, .ok (.msg 400 "Invalid or missing 'uuid' or 'feedback' in the JSON payload."))
  | .ok true =>
    match pyContains body "feedback" with
    | .error e => (db, .error e)
    | .ok false =>
      (db, .ok (.msg 400 "Invalid or missing 'uuid' or 'feedback' in the JSON payload."))
    | .ok true =>
      match pyGetItem body "uuid", pyGetItem body "feedback" with
      | .error e, _ => (db, .error e)
      | .ok _, .error e => (db, .error e)
      | .ok uuidValue, .ok feedbackText =>
        match pyIsValidUuid uuidValue with
        | .error e => (db, .error e)
        | .ok false => (db, .ok (.msg 400 "Invalid UUID format."))
        | .ok true => redeemCore validEmail (asStr uuidValue) feedbackText db

/-- An operation of the system: one HTTP request against one of the two
mutating handlers, together with its environment (fresh-id generator,
mail transport outcome, email-syntax validator). -/
inductive Op where
  | invite (gen : Nat → String) (notify : String → Option String) (body : Json)
  | submit (validEmail : String → Bool) (body : Json)

/-- The database after applying one operation (whatever was committed,
whether or not an exception escaped). -/
def applyOp (op : Op) (db : DB) : DB :=
  match op with
  | .invite gen notify body => (send_invite gen notify body db).1
  | .submit validEmail body => (submit_feedback validEmail body db).1

/-- The database after a sequence of requests starting from `db`. -/
def run (ops : List Op) (db : DB) : DB :=
  ops.foldl (fun s op => applyOp op s) db

/-- A database state reachable from the empty store by some sequence of
requests. -/
def Reachable (db : DB) : Prop :=
  ∃ ops : List Op, run ops DB.empty = db

/-- The record/flag invariant: a `UserFeedback` row with id `t` exists
iff the `Feedback` row with id `t` is marked `submitted`. -/
def Inv (db : DB) : Prop :=
  ∀ t : String, (∃ uf ∈ db.userFeedbacks, uf.id = t) ↔
    (∃ f ∈ db.feedbacks, f.id = t ∧ f.submitted = true)

end Anony

namespace Anony

lemma any_email_eq_false {l : List Feedback} {e : String}
    (h : ∀ f ∈ l, f.email ≠ e) : (l.any fun f => f.email == e) = false := by
  simp only [List.any_eq_false, beq_iff_eq]
  exact h

lemma any_id_eq_false {l : List Feedback} {i : String}
    (h : ∀ f ∈ l, f.id ≠ i) : (l.any fun f => f.id == i) = false := by
  simp only [List.any_eq_false, beq_iff_eq]
  exact h

lemma issue_fresh {db : DB} {id e : String}
    (hdup : ∀ f ∈ db.feedbacks, f.email ≠ e)
    (hid : ∀ f ∈ db.feedbacks, f.id ≠ id) :
    issue id e db = ({ db with feedbacks := db.feedbacks ++ [⟨id, e, false⟩] }, .issued) := by
  unfold issue
  rw [any_email_eq_false hdup, any_id_eq_false hid]
  simp

lemma issue_dup {db : DB} {id e : String} {f : Feedback}
    (hf : f ∈ db.feedbacks) (he : f.email = e) :
    issue id e db = (db, .duplicate) := by
  unfold issue
  have : (db.feedbacks.any fun f => f.email == e) = true := by
    simp only [List.any_eq_true, beq_iff_eq]
    exact ⟨f, hf, he⟩
  rw [this]
  simp

/-- C1: issuing twice for the same email `e` (second call on the state
left by the first) leaves exactly one stored token for `e`; the second
call reports the already-invited failure message and changes nothing
but the error list, so the first token's id, email and submitted flag
are untouched. -/
theorem invite_twice_single_token (gen : Nat → String) (notify : String → Option String)
    (db : DB) (succ err : List String) (n : Nat) (e : String)
    (hdup : ∀ f ∈ db.feedbacks, f.email ≠ e)
    (hid : ∀ f ∈ db.feedbacks, f.id ≠ gen n) :
    (inviteStep gen notify ⟨db, succ, err, n⟩ e).2 = none ∧
    ((inviteStep gen notify ⟨db, succ, err, n⟩ e).1.db.feedbacks.filter
        fun f => f.email == e) = [⟨gen n, e, false⟩] ∧
    inviteStep gen notify (inviteStep gen notify ⟨db, succ, err, n⟩ e).1 e =
      ({ (inviteStep gen notify ⟨db, succ, err, n⟩ e).1 with
          err := (inviteStep gen notify ⟨db, succ, err, n⟩ e).1.err ++ [dupMsg e] }, none) := by
  have hfil : (db.feedbacks.filter fun f => f.email == e) = [] := by
    rw [List.filter_eq_nil_iff]
    intro f hf
    simp only [beq_iff_eq]
    exact hdup f hf
  have hstep : inviteStep gen notify ⟨db, succ, err, n⟩ e
      = match notify e with
        | none => (⟨⟨db.feedbacks ++ [⟨gen n, e, false⟩], db.userFeedbacks⟩,
            succ ++ [okMsg e], err, n + 1⟩, none)
        | some exnText => (⟨⟨db.feedbacks ++ [⟨gen n, e, false⟩], db.userFeedbacks⟩,
            succ, err ++ [failMsg e exnText], n + 1⟩, none) := by
    unfold inviteStep
    rw [issue_fresh hdup hid]
  have hdup2 : ∀ (acc : InviteAcc),
      acc.db.feedbacks = db.feedbacks ++ [⟨gen n, e, false⟩] →
      inviteStep gen notify acc e = ({ acc with err := acc.err ++ [dupMsg e] }, none) := by
    intro acc hacc
    unfold inviteStep
    have hm : (⟨gen n, e, false⟩ : Feedback) ∈ acc.db.feedbacks := by
      rw [hacc]
      exact List.mem_append_right _ (by simp)
    rw [issue_dup hm rfl]
  cases hne : notify e with
  | none =>
    rw [hstep]
    simp only [hne]
    refine ⟨trivial, ?_, ?_⟩
    · simp [List.filter_append, hfil]
    · exact hdup2 _ rfl
  | some exnText =>
    rw [hstep]
    simp only [hne]
    refine ⟨trivial, ?_, ?_⟩
    · simp [List.filter_append, hfil]
    · exact hdup2 _ rfl

/-- C1 witness at a concrete input. -/
theorem invite_twice_single_token_witness :
    (inviteStep (fun _ => "t0") (fun _ => none) ⟨DB.empty, [], [], 0⟩ "a@x.com").2 = none ∧
    ((inviteStep (fun _ => "t0") (fun _ => none) ⟨DB.empty, [], [], 0⟩ "a@x.com").1.db.feedbacks.filter
        fun f => f.email == "a@x.com") = [⟨"t0", "a@x.com", false⟩] ∧
    inviteStep (fun _ => "t0") (fun _ => none)
        (inviteStep (fun _ => "t0") (fun _ => none) ⟨DB.empty, [], [], 0⟩ "a@x.com").1 "a@x.com" =
      ({ (inviteStep (fun _ => "t0") (fun _ => none) ⟨DB.empty, [], [], 0⟩ "a@x.com").1 with
          err := (inviteStep (fun _ => "t0") (fun _ => none) ⟨DB.empty, [], [], 0⟩ "a@x.com").1.err
            ++ [dupMsg "a@x.com"] }, none) :=
  invite_twice_single_token (fun _ => "t0") (fun _ => none) DB.empty [] [] 0 "a@x.com"
    (by intro f hf; cases hf) (by intro f hf; cases hf)

/-- C9: for an email not yet invited, looking up the id returned by
`issue` yields the stored token with that email and `submitted = false`. -/
theorem lookup_after_issue (id e : String) (db : DB)
    (hdup : ∀ f ∈ db.feedbacks, f.email ≠ e)
    (hid : ∀ f ∈ db.feedbacks, f.id ≠ id) :
    issue id e db = ({ db with feedbacks := db.feedbacks ++ [⟨id, e, false⟩] }, .issued) ∧
    lookup id (issue id e db).1 = some ⟨id, e, false⟩ := by
  have hiss := issue_fresh hdup hid
  refine ⟨hiss, ?_⟩
  rw [hiss]
  unfold lookup
  rw [List.find?_append]
  have h1 : (db.feedbacks.find? fun f => f.id == id) = none := by
    rw [List.find?_eq_none]
    intro f hf
    simp only [beq_iff_eq]
    exact hid f hf
  rw [h1]
  simp

/-- C9 witness at a concrete input. -/
theorem lookup_after_issue_witness :
    issue "t0" "a@x.com" DB.empty
      = ({ DB.empty with feedbacks := DB.empty.feedbacks ++ [⟨"t0", "a@x.com", false⟩] }, .issued) ∧
    lookup "t0" (issue "t0" "a@x.com" DB.empty).1 = some ⟨"t0", "a@x.com", false⟩ :=
  lookup_after_issue "t0" "a@x.com" DB.empty
    (by intro f hf; cases hf) (by intro f hf; cases hf)

end Anony

namespace Anony

lemma any_uf_id_eq_false {l : List UserFeedback} {i : String}
    (h : ∀ uf ∈ l, uf.id ≠ i) : (l.any fun uf => uf.id == i) = false := by
  simp only [List.any_eq_false, beq_iff_eq]
  exact h

lemma rfl_isNull_str (s : String) : isNull (Json.str s) = false := rfl

lemma redeemCore_success {validEmail : String → Bool} {tok : String} {bodyText : Json}
    {db : DB} {entry : Feedback}
    (hl : lookup tok db = some entry)
    (hs : entry.submitted = false)
    (hv : validEmail entry.email = true)
    (hn : isNull bodyText = false)
    (hpk : ∀ uf ∈ db.userFeedbacks, uf.id ≠ tok) :
    redeemCore validEmail tok bodyText db =
      (⟨db.feedbacks.map (markRedeemed tok),
        db.userFeedbacks ++ [⟨tok, entry.email, bodyText⟩]⟩,
        .ok (.msg 200 "Feedback submitted successfully!")) := by
  unfold redeemCore
  rw [hl]
  simp [hs, hv, hn, any_uf_id_eq_false hpk]

lemma redeemCore_already {validEmail : String → Bool} {tok : String} {bodyText : Json}
    {db : DB} {entry : Feedback}
    (hl : lookup tok db = some entry)
    (hs : entry.submitted = true) :
    redeemCore validEmail tok bodyText db
      = (db, .ok (.msg 400 "Feedback already submitted for this UUID.")) := by
  unfold redeemCore
  rw [hl]
  simp [hs]

lemma markRedeemed_of_eq {tok : String} {f : Feedback} (h : f.id = tok) :
    markRedeemed tok f = { f with submitted := true } := by
  simp [markRedeemed, h]

lemma markRedeemed_of_ne {tok : String} {f : Feedback} (h : ¬ f.id = tok) :
    markRedeemed tok f = f := by
  simp [markRedeemed, h]

lemma find?_map_markRedeemed (tok : String) (l : List Feedback) :
    ((l.map (markRedeemed tok)).find? fun f => f.id == tok)
      = (l.find? fun f => f.id == tok).map (markRedeemed tok) := by
  induction l with
  | nil => rfl
  | cons a l ih =>
    by_cases h : a.id = tok
    · have hm : markRedeemed tok a = { a with submitted := true } := markRedeemed_of_eq h
      rw [List.map_cons, List.find?_cons_of_pos, List.find?_cons_of_pos]
      · rw [hm]
        simp [hm]
      · simp [h]
      · simp [hm, h]
    · have hm : markRedeemed tok a = a := markRedeemed_of_ne h
      rw [List.map_cons, List.find?_cons_of_neg, List.find?_cons_of_neg]
      · exact ih
      · simp [h]
      · simp [hm, h]

lemma lookup_after_redeem {tok : String} {db : DB} {entry : Feedback}
    (hl : lookup tok db = some entry) (ufs : List UserFeedback) :
    lookup tok ⟨db.feedbacks.map (markRedeemed tok), ufs⟩
      = some { entry with submitted := true } := by
  unfold lookup at hl ⊢
  rw [find?_map_markRedeemed, hl]
  have hid : entry.id = tok := by
    have := List.find?_some hl
    simpa [beq_iff_eq] using this
  simp [markRedeemed_of_eq hid]

end Anony

namespace Anony

lemma filter_uf_append_single {ufs : List UserFeedback} {tok : String}
    (hpk : ∀ uf ∈ ufs, uf.id ≠ tok) (new : UserFeedback) (hnew : new.id = tok) :
    ((ufs ++ [new]).filter fun uf => uf.id == tok) = [new] := by
  rw [List.filter_append]
  have h1 : (ufs.filter fun uf => uf.id == tok) = [] := by
    rw [List.filter_eq_nil_iff]
    intro uf huf
    simp only [beq_iff_eq]
    exact hpk uf huf
  rw [h1]
  simp [hnew]

/-- C3 counterexample: on an existing unredeemed token, redeeming with
the empty feedback string does not fail — it succeeds, stores the empty
body and flips the submitted flag, and a later redeem with a non-empty
body is rejected as already submitted. -/
theorem empty_body_redeem_cex :
    redeemCore (fun _ => true) "t0" (.str "") ⟨[⟨"t0", "a@x.com", false⟩], []⟩
      = (⟨[⟨"t0", "a@x.com", true⟩], [⟨"t0", "a@x.com", .str ""⟩]⟩,
         .ok (.msg 200 "Feedback submitted successfully!")) ∧
    (redeemCore (fun _ => true) "t0" (.str "better late")
        ⟨[⟨"t0", "a@x.com", true⟩], [⟨"t0", "a@x.com", .str ""⟩]⟩).2
      = .ok (.msg 400 "Feedback already submitted for this UUID.") :=
  ⟨rfl, rfl⟩

/-- C3 (amended): the code performs no emptiness check on the feedback
body, so redeeming an existing unredeemed token (with a valid stored
email) with the empty string succeeds: the empty body is stored
verbatim in the new record, the token becomes submitted, and any later
redeem of the same token fails as already submitted. -/
theorem empty_body_redeem_succeeds (validEmail : String → Bool) (tok b2 : String)
    (db : DB) (entry : Feedback)
    (hl : lookup tok db = some entry)
    (hs : entry.submitted = false)
    (hv : validEmail entry.email = true)
    (hpk : ∀ uf ∈ db.userFeedbacks, uf.id ≠ tok) :
    redeemCore validEmail tok (.str "") db
      = (⟨db.feedbacks.map (markRedeemed tok),
          db.userFeedbacks ++ [⟨tok, entry.email, .str ""⟩]⟩,
         .ok (.msg 200 "Feedback submitted successfully!")) ∧
    (redeemCore validEmail tok (.str b2) (redeemCore validEmail tok (.str "") db).1).2
      = .ok (.msg 400 "Feedback already submitted for this UUID.") := by
  have h1 := redeemCore_success hl hs hv (rfl_isNull_str "") hpk
  refine ⟨h1, ?_⟩
  rw [h1]
  rw [redeemCore_already (lookup_after_redeem hl _) rfl]

/-- C3 witness at a concrete input. -/
theorem empty_body_redeem_succeeds_witness :
    redeemCore (fun _ => true) "u1" (.str "") ⟨[⟨"u1", "b@x.com", false⟩], []⟩
      = (⟨[⟨"u1", "b@x.com", false⟩].map (markRedeemed "u1"),
          [] ++ [⟨"u1", "b@x.com", .str ""⟩]⟩,
         .ok (.msg 200 "Feedback submitted successfully!")) ∧
    (redeemCore (fun _ => true) "u1" (.str "later")
        (redeemCore (fun _ => true) "u1" (.str "") ⟨[⟨"u1", "b@x.com", false⟩], []⟩).1).2
      = .ok (.msg 400 "Feedback already submitted for this UUID.") :=
  empty_body_redeem_succeeds (fun _ => true) "u1" "later"
    ⟨[⟨"u1", "b@x.com", false⟩], []⟩ ⟨"u1", "b@x.com", false⟩
    rfl rfl rfl (by intro uf huf; cases huf)

/-- C5: after a successful redeem, a second redeem of the same token
always fails as already submitted, and the stored feedback body for the
token is the first call's body, never the second's. -/
theorem double_redeem_already_redeemed (validEmail : String → Bool) (tok b1 b2 : String)
    (db : DB) (entry : Feedback)
    (hl : lookup tok db = some entry)
    (hs : entry.submitted = false)
    (hv : validEmail entry.email = true)
    (hpk : ∀ uf ∈ db.userFeedbacks, uf.id ≠ tok) :
    (redeemCore validEmail tok (.str b1) db).2
      = .ok (.msg 200 "Feedback submitted successfully!") ∧
    redeemCore validEmail tok (.str b2) (redeemCore validEmail tok (.str b1) db).1
      = ((redeemCore validEmail tok (.str b1) db).1,
         .ok (.msg 400 "Feedback already submitted for this UUID.")) ∧
    ((redeemCore validEmail tok (.str b1) db).1.userFeedbacks.filter fun uf => uf.id == tok)
      = [⟨tok, entry.email, .str b1⟩] := by
  have h1 := redeemCore_success hl hs hv (rfl_isNull_str b1) hpk
  rw [h1]
  refine ⟨rfl, ?_, ?_⟩
  · exact redeemCore_already (lookup_after_redeem hl _) rfl
  · exact filter_uf_append_single hpk _ rfl

/-- C5 witness at a concrete input. -/
theorem double_redeem_already_redeemed_witness :
    (redeemCore (fun _ => true) "u2" (.str "first words") ⟨[⟨"u2", "c@x.com", false⟩], []⟩).2
      = .ok (.msg 200 "Feedback submitted successfully!") ∧
    redeemCore (fun _ => true) "u2" (.str "second words")
        (redeemCore (fun _ => true) "u2" (.str "first words") ⟨[⟨"u2", "c@x.com", false⟩], []⟩).1
      = ((redeemCore (fun _ => true) "u2" (.str "first words") ⟨[⟨"u2", "c@x.com", false⟩], []⟩).1,
         .ok (.msg 400 "Feedback already submitted for this UUID.")) ∧
    ((redeemCore (fun _ => true) "u2" (.str "first words")
        ⟨[⟨"u2", "c@x.com", false⟩], []⟩).1.userFeedbacks.filter fun uf => uf.id == "u2")
      = [⟨"u2", "c@x.com", .str "first words"⟩] :=
  double_redeem_already_redeemed (fun _ => true) "u2" "first words" "second words"
    ⟨[⟨"u2", "c@x.com", false⟩], []⟩ ⟨"u2", "c@x.com", false⟩
    rfl rfl rfl (by intro uf huf; cases huf)

end Anony

namespace Anony

lemma submit_feedback_obj (validEmail : String → Bool) (tok fb : String) (db : DB) :
    submit_feedback validEmail (.obj [("uuid", .str tok), ("feedback", .str fb)]) db
      = if is_valid_uuid tok then redeemCore validEmail tok (.str fb) db
        else (db, .ok (.msg 400 "Invalid UUID format.")) := by
  have hshape : submit_feedback validEmail (.obj [("uuid", .str tok), ("feedback", .str fb)]) db
      = (match (Except.ok (is_valid_uuid tok) : Except PyExn Bool) with
        | Except.error e => (db, Except.error e)
        | Except.ok false => (db, Except.ok (Response.msg 400 "Invalid UUID format."))
        | Except.ok true => redeemCore validEmail tok (Json.str fb) db) := rfl
  rw [hshape]
  cases hv : is_valid_uuid tok with
  | true => simp
  | false => simp

lemma redeemCore_some_ne_404 {validEmail : String → Bool} {tok : String} {bodyText : Json}
    {db : DB} {entry : Feedback} (hl : lookup tok db = some entry) (m : String) :
    (redeemCore validEmail tok bodyText db).2 ≠ .ok (.msg 404 m) := by
  unfold redeemCore
  simp only [hl]
  split_ifs <;> simp

/-- C6: on a JSON-object body with string `uuid` and `feedback` fields,
the token text is format-checked before any storage lookup: a malformed
token id always yields the format error (never a not-found), and the
not-found response is returned only when the id is well formed and
absent from storage. -/
theorem format_checked_before_lookup (validEmail : String → Bool) (tok fb : String) (db : DB) :
    (is_valid_uuid tok = false →
      submit_feedback validEmail (.obj [("uuid", .str tok), ("feedback", .str fb)]) db
        = (db, .ok (.msg 400 "Invalid UUID format."))) ∧
    ((submit_feedback validEmail (.obj [("uuid", .str tok), ("feedback", .str fb)]) db).2
        = .ok (.msg 404 ("UUID '" ++ tok ++ "' not found.")) →
      is_valid_uuid tok = true ∧ lookup tok db = none) := by
  rw [submit_feedback_obj]
  constructor
  · intro h
    simp [h]
  · intro h
    cases hv : is_valid_uuid tok with
    | false =>
      rw [hv] at h
      simp at h
    | true =>
      refine ⟨rfl, ?_⟩
      rw [hv] at h
      simp only [if_true] at h
      cases hl : lookup tok db with
      | none => rfl
      | some entry => exact absurd h (redeemCore_some_ne_404 hl _)

/-- C6 witness at concrete inputs: a malformed id gets the format
error on any store, and a well-formed absent id satisfies the
not-found characterisation. -/
theorem format_checked_before_lookup_witness :
    submit_feedback (fun _ => true)
        (.obj [("uuid", .str "zzz"), ("feedback", .str "hello")]) DB.empty
      = (DB.empty, .ok (.msg 400 "Invalid UUID format.")) ∧
    (is_valid_uuid "6ba7b810-9dad-41d1-80b4-00c04fd430c8" = true ∧
      lookup "6ba7b810-9dad-41d1-80b4-00c04fd430c8" DB.empty = none) :=
  ⟨(format_checked_before_lookup (fun _ => true) "zzz" "hello" DB.empty).1 rfl,
   (format_checked_before_lookup (fun _ => true)
      "6ba7b810-9dad-41d1-80b4-00c04fd430c8" "hello" DB.empty).2 rfl⟩

/-- C7: when issuance succeeds but the notifier raises, the committed
token is kept (not rolled back) and remains redeemable, and the only
change besides the insert is one failure message for that email. -/
theorem notify_failure_keeps_token (gen : Nat → String) (notify : String → Option String)
    (db : DB) (succ err : List String) (n : Nat) (e exnText : String)
    (validEmail : String → Bool) (b : String)
    (hdup : ∀ f ∈ db.feedbacks, f.email ≠ e)
    (hid : ∀ f ∈ db.feedbacks, f.id ≠ gen n)
    (hnot : notify e = some exnText)
    (hv : validEmail e = true)
    (hpk : ∀ uf ∈ db.userFeedbacks, uf.id ≠ gen n) :
    inviteStep gen notify ⟨db, succ, err, n⟩ e
      = (⟨⟨db.feedbacks ++ [⟨gen n, e, false⟩], db.userFeedbacks⟩,
          succ, err ++ [failMsg e exnText], n + 1⟩, none) ∧
    (redeemCore validEmail (gen n) (.str b)
        ⟨db.feedbacks ++ [⟨gen n, e, false⟩], db.userFeedbacks⟩).2
      = .ok (.msg 200 "Feedback submitted successfully!") := by
  constructor
  · unfold inviteStep
    rw [issue_fresh hdup hid]
    simp [hnot]
  · have hl : lookup (gen n) ⟨db.feedbacks ++ [⟨gen n, e, false⟩], db.userFeedbacks⟩
        = some ⟨gen n, e, false⟩ := by
      unfold lookup
      rw [List.find?_append]
      have h1 : (db.feedbacks.find? fun f => f.id == gen n) = none := by
        rw [List.find?_eq_none]
        intro f hf
        simp only [beq_iff_eq]
        exact hid f hf
      rw [h1]
      simp
    rw [redeemCore_success hl rfl hv (rfl_isNull_str b) hpk]

/-- C7 witness at a concrete input with a failing notifier. -/
theorem notify_failure_keeps_token_witness :
    inviteStep (fun _ => "t7") (fun _ => some "smtp down") ⟨DB.empty, [], [], 0⟩ "d@x.com"
      = (⟨⟨DB.empty.feedbacks ++ [⟨"t7", "d@x.com", false⟩], DB.empty.userFeedbacks⟩,
          [], [] ++ [failMsg "d@x.com" "smtp down"], 0 + 1⟩, none) ∧
    (redeemCore (fun _ => true) "t7" (.str "some feedback")
        ⟨DB.empty.feedbacks ++ [⟨"t7", "d@x.com", false⟩], DB.empty.userFeedbacks⟩).2
      = .ok (.msg 200 "Feedback submitted successfully!") :=
  notify_failure_keeps_token (fun _ => "t7") (fun _ => some "smtp down") DB.empty [] [] 0
    "d@x.com" "smtp down" (fun _ => true) "some feedback"
    (by intro f hf; cases hf) (by intro f hf; cases hf) rfl rfl
    (by intro uf huf; cases huf)

lemma stripAllFuel_id {p0 : Char} {pt : List Char} (fuel : Nat) (cs : List Char)
    (h : ∀ c ∈ cs, c ≠ p0) : stripAllFuel (p0 :: pt) fuel cs = cs := by
  induction fuel generalizing cs with
  | zero => cases cs <;> rfl
  | succ fuel ih =>
    cases cs with
    | nil => rfl
    | cons c cs =>
      have hc : c ≠ p0 := h c (List.mem_cons_self c cs)
      have hpre : (p0 :: pt).isPrefixOf (c :: cs) = false := by
        simp only [List.isPrefixOf_cons₂]
        simp [beq_iff_eq]
        intro h'
        exact absurd h'.symm hc
      rw [stripAllFuel, hpre]
      simp only [Bool.false_and, Bool.false_eq_true, if_false]
      rw [ih cs (fun x hx => h x (List.mem_cons_of_mem c hx))]

lemma stripAll_id {p0 : Char} {pt : List Char} {cs : List Char}
    (h : ∀ c ∈ cs, c ≠ p0) : stripAll (p0 :: pt) cs = cs :=
  stripAllFuel_id _ _ h

lemma dropWhile_id {cs : List Char} {p : Char → Bool} (h : ∀ c ∈ cs, p c = false) :
    cs.dropWhile p = cs := by
  cases cs with
  | nil => rfl
  | cons a l =>
    rw [List.dropWhile_cons_of_neg]
    simp [h a (List.mem_cons_self a l)]

lemma stripBraces_id {cs : List Char} (h : ∀ c ∈ cs, isBrace c = false) :
    stripBraces cs = cs := by
  unfold stripBraces
  rw [dropWhile_id h, dropWhile_id (fun c hc => h c (List.mem_reverse.mp hc)),
    List.reverse_reverse]

lemma hexOrDash_ne_u {c : Char} (h : isHexChar c = true ∨ c = '-') : c ≠ 'u' := by
  rcases h with h | h
  · intro he
    subst he
    exact absurd h (by decide)
  · subst h
    decide

lemma brace_not_hex {c : Char} (h : isBrace c = true) : isHexChar c = false := by
  simp only [isBrace, Bool.or_eq_true, beq_iff_eq] at h
  rcases h with h | h <;> subst h <;> decide

lemma hexOrDash_not_brace {c : Char} (h : isHexChar c = true ∨ c = '-') :
    isBrace c = false := by
  rcases h with h | h
  · cases hb : isBrace c with
    | false => rfl
    | true => rw [brace_not_hex hb] at h; cases h
  · subst h
    decide

lemma hex_ne_dash {c : Char} (h : isHexChar c = true) : (!(c == '-')) = true := by
  cases hd : c == '-' with
  | false => rfl
  | true =>
    rw [beq_iff_eq] at hd
    subst hd
    exact absurd h (by decide)

/-- C10: every string in the canonical 8-4-4-4-12 hyphenated hex form —
a UUID of any version, the version nibble unconstrained — passes
`is_valid_uuid`, so `submit_feedback` proceeds past the format check to
the storage lookup (returning the not-found response when the token is
absent) instead of failing with the format error. -/
theorem any_version_uuid_accepted (a b c d e : List Char)
    (ha : a.length = 8) (hb : b.length = 4) (hc : c.length = 4) (hd : d.length = 4)
    (he : e.length = 12)
    (hha : a.all isHexChar = true) (hhb : b.all isHexChar = true)
    (hhc : c.all isHexChar = true) (hhd : d.all isHexChar = true)
    (hhe : e.all isHexChar = true)
    (validEmail : String → Bool) (fb : String) (db : DB)
    (hl : lookup (String.mk (a ++ '-' :: b ++ '-' :: c ++ '-' :: d ++ '-' :: e)) db = none) :
    is_valid_uuid (String.mk (a ++ '-' :: b ++ '-' :: c ++ '-' :: d ++ '-' :: e)) = true ∧
    submit_feedback validEmail
        (.obj [("uuid", .str (String.mk (a ++ '-' :: b ++ '-' :: c ++ '-' :: d ++ '-' :: e))),
               ("feedback", .str fb)]) db
      = (db, .ok (.msg 404 ("UUID '"
          ++ String.mk (a ++ '-' :: b ++ '-' :: c ++ '-' :: d ++ '-' :: e)
          ++ "' not found."))) := by
  have hall : ∀ ch ∈ a ++ '-' :: b ++ '-' :: c ++ '-' :: d ++ '-' :: e,
      isHexChar ch = true ∨ ch = '-' := by
    intro ch hch
    rcases List.mem_append.mp hch with h | h
    · rcases List.mem_append.mp h with h | h
      · rcases List.mem_append.mp h with h | h
        · rcases List.mem_append.mp h with h | h
          · exact Or.inl (List.all_eq_true.mp hha ch h)
          · rcases List.mem_cons.mp h with h | h
            · exact Or.inr h
            · exact Or.inl (List.all_eq_true.mp hhb ch h)
        · rcases List.mem_cons.mp h with h | h
          · exact Or.inr h
          · exact Or.inl (List.all_eq_true.mp hhc ch h)
      · rcases List.mem_cons.mp h with h | h
        · exact Or.inr h
        · exact Or.inl (List.all_eq_true.mp hhd ch h)
    · rcases List.mem_cons.mp h with h | h
      · exact Or.inr h
      · exact Or.inl (List.all_eq_true.mp hhe ch h)
  have hhex : pyUuidHex (a ++ '-' :: b ++ '-' :: c ++ '-' :: d ++ '-' :: e)
      = a ++ b ++ c ++ d ++ e := by
    unfold pyUuidHex
    rw [show stripAll urnPat (a ++ '-' :: b ++ '-' :: c ++ '-' :: d ++ '-' :: e)
        = a ++ '-' :: b ++ '-' :: c ++ '-' :: d ++ '-' :: e from
      stripAll_id (fun ch hch => hexOrDash_ne_u (hall ch hch))]
    rw [show stripAll uuidPat (a ++ '-' :: b ++ '-' :: c ++ '-' :: d ++ '-' :: e)
        = a ++ '-' :: b ++ '-' :: c ++ '-' :: d ++ '-' :: e from
      stripAll_id (fun ch hch => hexOrDash_ne_u (hall ch hch))]
    rw [stripBraces_id (fun ch hch => hexOrDash_not_brace (hall ch hch))]
    have hfa : ∀ l : List Char, l.all isHexChar = true →
        (l.filter fun ch => !(ch == '-')) = l := by
      intro l hla
      rw [List.filter_eq_self]
      intro x hx
      exact hex_ne_dash (List.all_eq_true.mp hla x hx)
    simp [List.filter_append, List.filter_cons, hfa a hha, hfa b hhb, hfa c hhc,
      hfa d hhd, hfa e hhe]
  have hvalid : is_valid_uuid (String.mk (a ++ '-' :: b ++ '-' :: c ++ '-' :: d ++ '-' :: e))
      = true := by
    unfold is_valid_uuid
    have : String.toList (String.mk (a ++ '-' :: b ++ '-' :: c ++ '-' :: d ++ '-' :: e))
        = a ++ '-' :: b ++ '-' :: c ++ '-' :: d ++ '-' :: e := rfl
    rw [this, hhex]
    simp only [List.length_append, ha, hb, hc, hd, he, List.all_append]
    rw [hha, hhb, hhc, hhd, hhe]
    decide
  refine ⟨hvalid, ?_⟩
  rw [submit_feedback_obj, if_pos hvalid]
  unfold redeemCore
  simp only [hl]

/-- C10 witness: the concrete version-1 UUID
`6ba7b810-9dad-11d1-80b4-00c04fd430c8` passes the format check and
reaches the storage lookup. -/
theorem any_version_uuid_accepted_witness :
    is_valid_uuid "6ba7b810-9dad-11d1-80b4-00c04fd430c8" = true ∧
    submit_feedback (fun _ => true)
        (.obj [("uuid", .str "6ba7b810-9dad-11d1-80b4-00c04fd430c8"),
               ("feedback", .str "hi")]) DB.empty
      = (DB.empty,
         .ok (.msg 404 "UUID '6ba7b810-9dad-11d1-80b4-00c04fd430c8' not found.")) :=
  any_version_uuid_accepted
    ['6', 'b', 'a', '7', 'b', '8', '1', '0'] ['9', 'd', 'a', 'd'] ['1', '1', 'd', '1']
    ['8', '0', 'b', '4'] ['0', '0', 'c', '0', '4', 'f', 'd', '4', '3', '0', 'c', '8']
    rfl rfl rfl rfl rfl (by decide) (by decide) (by decide) (by decide) (by decide)
    (fun _ => true) "hi" DB.empty rfl

lemma send_invite_obj (gen : Nat → String) (notify : String → Option String)
    (xs : List Json) (db : DB) :
    send_invite gen notify (.obj [("emails", .arr xs)]) db
      = (if xs.isEmpty then (db, Except.ok (Response.msg 400 "Invalid or empty email array."))
         else if xs.all isStr then
           match inviteLoop gen notify (xs.map asStr) ⟨db, [], [], 0⟩ with
           | (acc, none) => (acc.db, Except.ok (Response.invites acc.succ acc.err))
           | (acc, some exn) => (acc.db, Except.error exn)
         else (db, Except.ok (Response.msg 400 "Invalid or empty email array."))) := rfl

/-- C4 counterexample: a batch holding the non-string entry `1` next to
the valid email `a@x.com` is rejected wholesale with one 400 response:
the invalid entry is not recorded in a failures list, no token is
created for `a@x.com`, and the store is unchanged. -/
theorem invalid_entry_aborts_batch_cex :
    send_invite (fun _ => "t0") (fun _ => none)
        (.obj [("emails", .arr [.num 1, .str "a@x.com"])]) DB.empty
      = (DB.empty, .ok (.msg 400 "Invalid or empty email array.")) := rfl

/-- C4 (amended): a structurally invalid entry is not handled
per-item — any non-string entry makes the whole batch fail with a
single 400 response before any entry is processed, leaving the store
untouched; and an empty-string entry is not rejected at all: it is
processed like any email, creating a token for the empty string when it
is not already invited. -/
theorem batch_validation_wholesale (gen : Nat → String) (notify : String → Option String)
    (xs : List Json) (db : DB)
    (hbad : xs.all isStr = false) :
    send_invite gen notify (.obj [("emails", .arr xs)]) db
      = (db, .ok (.msg 400 "Invalid or empty email array.")) ∧
    ((∀ f ∈ db.feedbacks, f.email ≠ "") → (∀ f ∈ db.feedbacks, f.id ≠ gen 0) →
      (send_invite gen notify (.obj [("emails", .arr [.str ""])]) db).1.feedbacks
        = db.feedbacks ++ [⟨gen 0, "", false⟩]) := by
  constructor
  · rw [send_invite_obj]
    have hne : xs.isEmpty = false := by
      cases xs with
      | nil => cases hbad
      | cons y ys => rfl
    rw [hne, hbad]
    simp
  · intro hdup hid
    have hiss := issue_fresh hdup hid
    have hshape : send_invite gen notify (.obj [("emails", .arr [.str ""])]) db
        = (match inviteLoop gen notify [""] ⟨db, [], [], 0⟩ with
          | (acc, none) => (acc.db, Except.ok (Response.invites acc.succ acc.err))
          | (acc, some exn) => (acc.db, Except.error exn)) := rfl
    rw [hshape]
    unfold inviteLoop inviteStep
    dsimp only
    rw [hiss]
    cases hnt : notify "" with
    | none =>
      dsimp only
      rfl
    | some ex =>
      dsimp only
      rfl

/-- C4 witness at concrete inputs. -/
theorem batch_validation_wholesale_witness :
    send_invite (fun _ => "t4") (fun _ => none)
        (.obj [("emails", .arr [.bool true, .str "b@x.com"])]) DB.empty
      = (DB.empty, .ok (.msg 400 "Invalid or empty email array.")) ∧
    (send_invite (fun _ => "t4") (fun _ => none)
        (.obj [("emails", .arr [.str ""])]) DB.empty).1.feedbacks
      = DB.empty.feedbacks ++ [⟨"t4", "", false⟩] := by
  have h := batch_validation_wholesale (fun _ => "t4") (fun _ => none)
    [.bool true, .str "b@x.com"] DB.empty rfl
  exact ⟨h.1, h.2 (by intro f hf; cases hf) (by intro f hf; cases hf)⟩

/-- Whether a handler result is a structured response rather than an
uncaught exception. -/
def isOkE (r : Except PyExn Response) : Bool :=
  match r with
  | .ok _ => true
  | .error _ => false

/-- C8 counterexample: a JSON `null` request body (Python `None`) makes
both handlers raise an uncaught `TypeError` — `'emails' in None` resp.
`'uuid' in None` — instead of returning a structured error result. -/
theorem null_body_uncaught_cex :
    (send_invite (fun _ => "t0") (fun _ => none) Json.null DB.empty).2
      = .error .typeError ∧
    (submit_feedback (fun _ => true) Json.null DB.empty).2 = .error .typeError :=
  ⟨rfl, rfl⟩

lemma redeemCore_no_exn {validEmail : String → Bool} {tok : String} {bodyText : Json}
    {db : DB}
    (hn : isNull bodyText = false)
    (hpk : ∀ uf ∈ db.userFeedbacks, uf.id ≠ tok) :
    isOkE (redeemCore validEmail tok bodyText db).2 = true := by
  unfold redeemCore
  cases hl : lookup tok db with
  | none => rfl
  | some entry =>
    dsimp only
    rw [hn, any_uf_id_eq_false hpk]
    split_ifs <;> first | rfl | contradiction

lemma inviteLoop_no_exn (gen : Nat → String) (notify : String → Option String)
    (emails : List String) (acc : InviteAcc) (bound : Nat)
    (hb : acc.n + emails.length ≤ bound)
    (hfresh : ∀ f ∈ acc.db.feedbacks, ∀ m, acc.n ≤ m → m < bound → f.id ≠ gen m)
    (hinj : ∀ k, k < bound → ∀ l, l < k → gen l ≠ gen k) :
    (inviteLoop gen notify emails acc).2 = none := by
  induction emails generalizing acc with
  | nil => rfl
  | cons e rest ih =>
    unfold inviteLoop inviteStep
    cases hdup : acc.db.feedbacks.any (fun f => f.email == e) with
    | true =>
      have hd : issue (gen acc.n) e acc.db = (acc.db, .duplicate) := by
        unfold issue
        rw [hdup]
        simp
      rw [hd]
      dsimp only
      apply ih
      · show acc.n + rest.length ≤ bound
        simp only [List.length_cons] at hb
        omega
      · exact hfresh
    | false =>
      have hbn : acc.n < bound := by
        simp only [List.length_cons] at hb
        omega
      have hcol : (acc.db.feedbacks.any fun f => f.id == gen acc.n) = false := by
        apply any_id_eq_false
        intro f hf
        exact hfresh f hf acc.n le_rfl hbn
      have hi : issue (gen acc.n) e acc.db
          = ({ acc.db with feedbacks := acc.db.feedbacks ++ [⟨gen acc.n, e, false⟩] },
             .issued) := by
        unfold issue
        rw [hdup, hcol]
        simp
      rw [hi]
      have hfresh' : ∀ f ∈ acc.db.feedbacks ++ [(⟨gen acc.n, e, false⟩ : Feedback)],
          ∀ m, acc.n + 1 ≤ m → m < bound → f.id ≠ gen m := by
        intro f hf m hm1 hm2
        rcases List.mem_append.mp hf with h | h
        · exact hfresh f h m (by omega) hm2
        · rcases List.mem_cons.mp h with h | h
          · subst h
            exact hinj m hm2 acc.n (by omega)
          · cases h
      cases hnt : notify e with
      | none =>
        dsimp only
        apply ih
        · show acc.n + 1 + rest.length ≤ bound
          simp only [List.length_cons] at hb
          omega
        · exact hfresh'
      | some ex =>
        dsimp only
        apply ih
        · show acc.n + 1 + rest.length ≤ bound
          simp only [List.length_cons] at hb
          omega
        · exact hfresh'

/-- C8 (amended): for a JSON-object body whose `emails` field is an
array, whose `uuid` and `feedback` fields are strings, and absent a
storage primary-key collision (fresh, non-repeating generated ids; no
existing record under the submitted id), both handlers return a
structured result and no exception escapes. (A `null` or non-container
body, a non-string `uuid` value, a non-iterable `emails` value, a
`null` feedback value, or a key collision at commit time does escape as
an uncaught exception.) -/
theorem object_body_no_uncaught_exception (gen : Nat → String)
    (notify : String → Option String) (validEmail : String → Bool)
    (xs : List Json) (u fb : String) (db : DB)
    (hinj : ∀ k, k < xs.length → ∀ l, l < k → gen l ≠ gen k)
    (hfresh : ∀ f ∈ db.feedbacks, ∀ m, m < xs.length → f.id ≠ gen m)
    (hpk : ∀ uf ∈ db.userFeedbacks, uf.id ≠ u) :
    isOkE (send_invite gen notify
        (.obj [("emails", .arr xs), ("uuid", .str u), ("feedback", .str fb)]) db).2 = true ∧
    isOkE (submit_feedback validEmail
        (.obj [("emails", .arr xs), ("uuid", .str u), ("feedback", .str fb)]) db).2
      = true := by
  constructor
  · have hshape : send_invite gen notify
        (.obj [("emails", .arr xs), ("uuid", .str u), ("feedback", .str fb)]) db
        = (if xs.isEmpty then (db, Except.ok (Response.msg 400 "Invalid or empty email array."))
           else if xs.all isStr then
             match inviteLoop gen notify (xs.map asStr) ⟨db, [], [], 0⟩ with
             | (acc, none) => (acc.db, Except.ok (Response.invites acc.succ acc.err))
             | (acc, some exn) => (acc.db, Except.error exn)
           else (db, Except.ok (Response.msg 400 "Invalid or empty email array."))) := rfl
    rw [hshape]
    cases he : xs.isEmpty with
    | true => rfl
    | false =>
      cases hstr : xs.all isStr with
      | false => simp [isOkE]
      | true =>
        simp only [if_true, Bool.false_eq_true, if_false]
        have hnone := inviteLoop_no_exn gen notify (xs.map asStr) ⟨db, [], [], 0⟩
          xs.length (by simp) (by intro f hf m hm1 hm2; exact hfresh f hf m hm2) hinj
        rcases hres : inviteLoop gen notify (xs.map asStr) ⟨db, [], [], 0⟩ with ⟨acc, o⟩
        rw [hres] at hnone
        cases o with
        | none => rfl
        | some ex => cases hnone
  · have hshape : submit_feedback validEmail
        (.obj [("emails", .arr xs), ("uuid", .str u), ("feedback", .str fb)]) db
        = (match (Except.ok (is_valid_uuid u) : Except PyExn Bool) with
          | Except.error e => (db, Except.error e)
          | Except.ok false => (db, Except.ok (Response.msg 400 "Invalid UUID format."))
          | Except.ok true => redeemCore validEmail u (Json.str fb) db) := rfl
    rw [hshape]
    cases hv : is_valid_uuid u with
    | false => rfl
    | true =>
      dsimp only
      exact redeemCore_no_exn rfl hpk

/-- C8 witness at concrete inputs (two fresh distinct ids, empty
store). -/
theorem object_body_no_uncaught_exception_witness :
    isOkE (send_invite (fun k => Nat.repr k) (fun _ => none)
        (.obj [("emails", .arr [.str "a@x.com", .str "b@y.com"]),
               ("uuid", .str "u"), ("feedback", .str "f")]) DB.empty).2 = true ∧
    isOkE (submit_feedback (fun _ => true)
        (.obj [("emails", .arr [.str "a@x.com", .str "b@y.com"]),
               ("uuid", .str "u"), ("feedback", .str "f")]) DB.empty).2 = true :=
  object_body_no_uncaught_exception (fun k => Nat.repr k) (fun _ => none) (fun _ => true)
    [.str "a@x.com", .str "b@y.com"] "u" "f" DB.empty
    (by decide) (by intro f hf; cases hf) (by intro uf huf; cases huf)

/-- States that `db'` extends `db` by appending only unsubmitted invite
tokens, leaving the feedback records untouched — the only kind of
change `send_invite` makes. -/
def ExtendsUnsub (db db' : DB) : Prop :=
  db'.userFeedbacks = db.userFeedbacks ∧
  ∃ extra, db'.feedbacks = db.feedbacks ++ extra ∧ ∀ f ∈ extra, f.submitted = false

lemma extendsUnsub_refl (db : DB) : ExtendsUnsub db db :=
  ⟨rfl, [], by simp, by intro f hf; cases hf⟩

lemma extendsUnsub_trans {a b c : DB} (h1 : ExtendsUnsub a b) (h2 : ExtendsUnsub b c) :
    ExtendsUnsub a c := by
  obtain ⟨hu1, e1, hf1, hs1⟩ := h1
  obtain ⟨hu2, e2, hf2, hs2⟩ := h2
  refine ⟨hu2.trans hu1, e1 ++ e2, ?_, ?_⟩
  · rw [hf2, hf1, List.append_assoc]
  · intro f hf
    rcases List.mem_append.mp hf with h | h
    · exact hs1 f h
    · exact hs2 f h

lemma inviteStep_extends (gen : Nat → String) (notify : String → Option String)
    (acc : InviteAcc) (e : String) :
    ExtendsUnsub acc.db (inviteStep gen notify acc e).1.db := by
  unfold inviteStep
  cases h1 : acc.db.feedbacks.any (fun f => f.email == e) with
  | true =>
    have hd : issue (gen acc.n) e acc.db = (acc.db, .duplicate) := by
      unfold issue
      rw [h1]
      simp
    rw [hd]
    exact extendsUnsub_refl _
  | false =>
    cases h2 : acc.db.feedbacks.any (fun f => f.id == gen acc.n) with
    | true =>
      have hd : issue (gen acc.n) e acc.db = (acc.db, .collision) := by
        unfold issue
        rw [h1, h2]
        simp
      rw [hd]
      exact extendsUnsub_refl _
    | false =>
      have hd : issue (gen acc.n) e acc.db
          = ({ acc.db with feedbacks := acc.db.feedbacks ++ [⟨gen acc.n, e, false⟩] },
             .issued) := by
        unfold issue
        rw [h1, h2]
        simp
      rw [hd]
      cases notify e with
      | none =>
        exact ⟨rfl, [⟨gen acc.n, e, false⟩], rfl, by
          intro f hf
          rcases List.mem_cons.mp hf with h | h
          · subst h; rfl
          · cases h⟩
      | some ex =>
        exact ⟨rfl, [⟨gen acc.n, e, false⟩], rfl, by
          intro f hf
          rcases List.mem_cons.mp hf with h | h
          · subst h; rfl
          · cases h⟩

lemma inviteLoop_extends (gen : Nat → String) (notify : String → Option String)
    (emails : List String) (acc : InviteAcc) :
    ExtendsUnsub acc.db (inviteLoop gen notify emails acc).1.db := by
  induction emails generalizing acc with
  | nil => exact extendsUnsub_refl _
  | cons e rest ih =>
    unfold inviteLoop
    rcases hs : inviteStep gen notify acc e with ⟨acc', o⟩
    have hstep : ExtendsUnsub acc.db acc'.db := by
      have h := inviteStep_extends gen notify acc e
      rw [hs] at h
      exact h
    cases o with
    | none =>
      dsimp only
      exact extendsUnsub_trans hstep (ih acc')
    | some ex =>
      dsimp only
      exact hstep

lemma send_invite_extends (gen : Nat → String) (notify : String → Option String)
    (body : Json) (db : DB) :
    ExtendsUnsub db (send_invite gen notify body db).1 := by
  unfold send_invite
  cases pyContains body "emails" with
  | error e => exact extendsUnsub_refl _
  | ok b =>
    cases b with
    | false => exact extendsUnsub_refl _
    | true =>
      cases pyGetItem body "emails" with
      | error e => exact extendsUnsub_refl _
      | ok emailsJ =>
        dsimp only
        split_ifs with hfal
        · exact extendsUnsub_refl _
        · cases pyIter emailsJ with
          | error e => exact extendsUnsub_refl _
          | ok items =>
            dsimp only
            split_ifs with hstr
            · rcases hres : inviteLoop gen notify (items.map asStr) ⟨db, [], [], 0⟩
                with ⟨acc, o⟩
              have h := inviteLoop_extends gen notify (items.map asStr) ⟨db, [], [], 0⟩
              rw [hres] at h
              cases o <;> dsimp only <;> exact h
            · exact extendsUnsub_refl _

lemma inv_extendsUnsub {db db' : DB} (hinv : Inv db) (h : ExtendsUnsub db db') : Inv db' := by
  obtain ⟨hu, extra, hf, hs⟩ := h
  intro t
  rw [hu, hf]
  constructor
  · rintro ⟨uf, hufm, hufid⟩
    obtain ⟨f, hfm, hfid, hfsub⟩ := (hinv t).mp ⟨uf, hufm, hufid⟩
    exact ⟨f, List.mem_append_left _ hfm, hfid, hfsub⟩
  · rintro ⟨f, hfm, hfid, hfsub⟩
    rcases List.mem_append.mp hfm with h | h
    · exact (hinv t).mpr ⟨f, h, hfid, hfsub⟩
    · rw [hs f h] at hfsub
      cases hfsub

lemma markRedeemed_id (tok : String) (f : Feedback) : (markRedeemed tok f).id = f.id := by
  unfold markRedeemed
  split_ifs <;> rfl

lemma markRedeemed_submitted_of_true {tok : String} {f : Feedback}
    (h : f.submitted = true) : (markRedeemed tok f).submitted = true := by
  unfold markRedeemed
  split_ifs <;> simp [h]

lemma redeemCore_inv {validEmail : String → Bool} {tok : String} {bodyText : Json}
    {db : DB} (hinv : Inv db) :
    Inv (redeemCore validEmail tok bodyText db).1 := by
  unfold redeemCore
  cases hl : lookup tok db with
  | none => exact hinv
  | some entry =>
    dsimp only
    split_ifs with h1 h2 h3 h4
    · exact hinv
    · exact hinv
    · exact hinv
    · exact hinv
    · have hmem : entry ∈ db.feedbacks := List.mem_of_find?_eq_some hl
      have hid : entry.id = tok := by
        have h := List.find?_some hl
        simpa [beq_iff_eq] using h
      intro t
      dsimp only
      constructor
      · rintro ⟨uf, hufm, hufid⟩
        rcases List.mem_append.mp hufm with h | h
        · obtain ⟨f, hfm, hfid, hfsub⟩ := (hinv t).mp ⟨uf, h, hufid⟩
          exact ⟨markRedeemed tok f, List.mem_map_of_mem _ hfm,
            by rw [markRedeemed_id, hfid], markRedeemed_submitted_of_true hfsub⟩
        · rcases List.mem_cons.mp h with h | h
          · subst h
            refine ⟨markRedeemed tok entry, List.mem_map_of_mem _ hmem, ?_, ?_⟩
            · rw [markRedeemed_id, hid]
              exact hufid
            · rw [markRedeemed_of_eq hid]
          · cases h
      · rintro ⟨f', hf'm, hf'id, hf'sub⟩
        obtain ⟨f, hfm, rfl⟩ := List.mem_map.mp hf'm
        by_cases ht : f.id = tok
        · refine ⟨⟨tok, entry.email, bodyText⟩, List.mem_append_right _ (by simp), ?_⟩
          rw [← hf'id, markRedeemed_id, ht]
        · rw [markRedeemed_of_ne ht] at hf'id hf'sub
          obtain ⟨uf, hufm, hufid⟩ := (hinv t).mpr ⟨f, hfm, hf'id, hf'sub⟩
          exact ⟨uf, List.mem_append_left _ hufm, hufid⟩

lemma submit_feedback_inv (validEmail : String → Bool) (body : Json) (db : DB)
    (hinv : Inv db) :
    Inv (submit_feedback validEmail body db).1 := by
  unfold submit_feedback
  cases pyContains body "uuid" with
  | error e => exact hinv
  | ok b =>
    cases b with
    | false => exact hinv
    | true =>
      cases pyContains body "feedback" with
      | error e => exact hinv
      | ok b2 =>
        cases b2 with
        | false => exact hinv
        | true =>
          cases pyGetItem body "uuid" with
          | error e => exact hinv
          | ok uv =>
            cases pyGetItem body "feedback" with
            | error e => exact hinv
            | ok fv =>
              dsimp only
              cases pyIsValidUuid uv with
              | error e => exact hinv
              | ok vb =>
                cases vb with
                | false => exact hinv
                | true => exact redeemCore_inv hinv

lemma applyOp_inv (op : Op) (db : DB) (hinv : Inv db) : Inv (applyOp op db) := by
  cases op with
  | invite gen notify body =>
    exact inv_extendsUnsub hinv (send_invite_extends gen notify body db)
  | submit validEmail body => exact submit_feedback_inv validEmail body db hinv

lemma inv_empty : Inv DB.empty := by
  intro t
  constructor
  · rintro ⟨uf, huf, h⟩
    cases huf
  · rintro ⟨f, hf, h⟩
    cases hf

lemma run_inv (ops : List Op) (db : DB) (hinv : Inv db) : Inv (run ops db) := by
  induction ops generalizing db with
  | nil => exact hinv
  | cons op rest ih => exact ih _ (applyOp_inv op db hinv)

lemma redeemCore_fail_frame {validEmail : String → Bool} {tok : String} {bodyText : Json}
    {db : DB}
    (h : (redeemCore validEmail tok bodyText db).2
      ≠ .ok (.msg 200 "Feedback submitted successfully!")) :
    (redeemCore validEmail tok bodyText db).1 = db := by
  unfold redeemCore at h ⊢
  cases hl : lookup tok db with
  | none => rfl
  | some entry =>
    rw [hl] at h
    dsimp only at h ⊢
    split_ifs at h ⊢ <;> first | rfl | (exact absurd rfl h)

lemma submit_feedback_fail_frame (validEmail : String → Bool) (body : Json) (db : DB)
    (h : (submit_feedback validEmail body db).2
      ≠ .ok (.msg 200 "Feedback submitted successfully!")) :
    (submit_feedback validEmail body db).1 = db := by
  unfold submit_feedback at h ⊢
  revert h
  cases pyContains body "uuid" with
  | error e => intro h; rfl
  | ok b =>
    cases b with
    | false => intro h; rfl
    | true =>
      cases pyContains body "feedback" with
      | error e => intro h; rfl
      | ok b2 =>
        cases b2 with
        | false => intro h; rfl
        | true =>
          cases pyGetItem body "uuid" with
          | error e => intro h; rfl
          | ok uv =>
            cases pyGetItem body "feedback" with
            | error e => intro h; rfl
            | ok fv =>
              dsimp only
              cases pyIsValidUuid uv with
              | error e => intro h; rfl
              | ok vb =>
                cases vb with
                | false => intro h; rfl
                | true => exact fun h => redeemCore_fail_frame h

/-- C2: in every state reachable by any sequence of requests, a
UserFeedback record with id t exists iff the invite token with id t has
`submitted = true`; moreover every non-successful branch of
`submit_feedback` leaves the store completely unchanged, so the record
insert and the flag flip are one atomic transition and no failing
branch leaves one without the other. -/
theorem record_iff_submitted_invariant (db : DB) (h : Reachable db) :
    Inv db ∧
    ∀ (validEmail : String → Bool) (body : Json),
      (submit_feedback validEmail body db).2
          ≠ .ok (.msg 200 "Feedback submitted successfully!") →
        (submit_feedback validEmail body db).1 = db := by
  obtain ⟨ops, hops⟩ := h
  constructor
  · rw [← hops]
    exact run_inv ops DB.empty inv_empty
  · intro validEmail body
    exact submit_feedback_fail_frame validEmail body db

/-- C2 witness: the invariant holds at a concrete reachable state (one
invite issued, then redeemed). -/
theorem record_iff_submitted_invariant_witness :
    Inv ⟨[⟨"aaaaaaaa-bbbb-11bb-aabb-aabbccddeeff", "w@x.com", true⟩], [⟨"aaaaaaaa-bbbb-11bb-aabb-aabbccddeeff", "w@x.com", .str "nice"⟩]⟩ ∧
    ∀ (validEmail : String → Bool) (body : Json),
      (submit_feedback validEmail body
            ⟨[⟨"aaaaaaaa-bbbb-11bb-aabb-aabbccddeeff", "w@x.com", true⟩], [⟨"aaaaaaaa-bbbb-11bb-aabb-aabbccddeeff", "w@x.com", .str "nice"⟩]⟩).2
          ≠ .ok (.msg 200 "Feedback submitted successfully!") →
        (submit_feedback validEmail body
            ⟨[⟨"aaaaaaaa-bbbb-11bb-aabb-aabbccddeeff", "w@x.com", true⟩], [⟨"aaaaaaaa-bbbb-11bb-aabb-aabbccddeeff", "w@x.com", .str "nice"⟩]⟩).1
          = ⟨[⟨"aaaaaaaa-bbbb-11bb-aabb-aabbccddeeff", "w@x.com", true⟩], [⟨"aaaaaaaa-bbbb-11bb-aabb-aabbccddeeff", "w@x.com", .str "nice"⟩]⟩ :=
  record_iff_submitted_invariant
    ⟨[⟨"aaaaaaaa-bbbb-11bb-aabb-aabbccddeeff", "w@x.com", true⟩], [⟨"aaaaaaaa-bbbb-11bb-aabb-aabbccddeeff", "w@x.com", .str "nice"⟩]⟩
    ⟨[.invite (fun _ => "aaaaaaaa-bbbb-11bb-aabb-aabbccddeeff") (fun _ => none) (.obj [("emails", .arr [.str "w@x.com"])]),
      .submit (fun _ => true) (.obj [("uuid", .str "aaaaaaaa-bbbb-11bb-aabb-aabbccddeeff"), ("feedback", .str "nice")])],
     rfl⟩

end Anony
